import Mathlib

/-!
Verification of the Autodialer call-queueing and sequential-execution core.

Shallow embedding of the Python sources:
  * `app/models/call_log.py`   — `CallStatus`, `CallLog` (here `CallRecord`) and `CallLog.mark`
  * `app/services/call_manager.py` — `CallTask`, `enqueue_calls`, `execute_call_sequence`,
    `_update_status` (here `update_status`), `_finalise` (here `finalise`), `RATE_LIMIT_SECONDS`
  * `app/services/twilio_service.py` — `CallResult`, `ensure_test_mode`, `place_call`
  * `app/utils.py` — `validate_number`, `strip_ansi`, the Indian-number regex and the
    test allow-list constant

Modelling conventions:
  * The SQLAlchemy session is modelled as an association list `Store` from record id to
    record; `session.get` is `Store.get?` and a committed `mark` is `Store.set`.
    Timestamps (`created_at` / `updated_at`) carry no claim content and are omitted.
  * `asyncio.sleep` and the Twilio network call are modelled through an event trace
    (`Ev`) and an abstract per-call network outcome (`NetOutcome`).
  * Storage failures (the only exceptions the storage collaborator can raise that the
    claims are concerned with) are modelled in the `…E` variants of the operations,
    where each commit/flush may raise according to explicit Boolean flags.
-/

/-- Model of `CallStatus` from `app/models/call_log.py`. -/
inductive CallStatus where
  | queued
  | in_progress
  | success
  | failed
  | skipped
deriving DecidableEq, Repr

/-- Terminal states per the call lifecycle (`success`, `failed`, `skipped`). -/
def CallStatus.isTerminal : CallStatus → Bool
  | .success => true
  | .failed => true
  | .skipped => true
  | _ => false

/-- The persisted `CallLog` row from `app/models/call_log.py` (timestamps omitted). -/
structure CallRecord where
  number : String
  message : String
  status : CallStatus
  duration : Option Nat
  error : Option String
  callSid : Option String
deriving DecidableEq, Repr

/-- Model of `CallLog.mark` from `app/models/call_log.py`: sets `status` unconditionally and
each optional field only when the argument is not `None`. -/
def CallRecord.mark (log : CallRecord) (status : CallStatus)
    (duration : Option Nat) (error : Option String) (callSid : Option String) :
    CallRecord :=
  { log with
    status := status
    duration := match duration with | some d => some d | none => log.duration
    error := match error with | some e => some e | none => log.error
    callSid := match callSid with | some s => some s | none => log.callSid }

/-- Model of `CallTask` from `app/services/call_manager.py`. -/
structure CallTask where
  id : Nat
  number : String
  message : String
deriving DecidableEq, Repr

/-- Model of `CallResult` from `app/services/twilio_service.py`. -/
structure CallResult where
  success : Bool
  sid : Option String
  duration : Option Nat
  error : Option String
deriving DecidableEq, Repr

/-- The database, modelled as an association list from row id to row. -/
abbrev Store := List (Nat × CallRecord)

/-- Model of `session.get(CallLog, id)`. -/
def Store.get? : Store → Nat → Option CallRecord
  | [], _ => none
  | (k, r) :: rest, id => if k = id then some r else Store.get? rest id

/-- Committing an updated row: replace the row with key `id`. -/
def Store.set : Store → Nat → CallRecord → Store
  | [], _, _ => []
  | (k, r) :: rest, id, r' =>
      if k = id then (k, r') :: Store.set rest id r' else (k, r) :: Store.set rest id r'

/-! ## `app/utils.py` — the Number Gate and `strip_ansi` -/

/-- Model of `str.startswith` over the character list (extensionally the same as
`String.startsWith`, but kernel-computable). -/
def startsWithStr (s p : String) : Bool := p.toList.isPrefixOf s.toList

/-- Model of the test allow-list constant from `app/utils.py` (renamed for this development). -/
def TWILIO_TEST_NUMBER_START : String := "+1500"

/-- The outcome record returned by `validate_number` (`NumberValidationResult`). -/
structure NumberValidationResult where
  number : String
  is_valid : Bool
  reason : Option String
deriving DecidableEq, Repr

/-- The body `[6-9]\d{9}` of `INDIAN_NUMBER_REGEX`: ten characters, the first in
`6`–`9`, the rest decimal digits.  (`\d` is modelled as the ASCII digits.) -/
def isIndianCore (l : List Char) : Bool :=
  match l with
  | c :: rest => ('6' ≤ c && c ≤ '9') && rest.length = 9 && rest.all Char.isDigit
  | [] => false

/-- Anchored match of `INDIAN_NUMBER_REGEX = ^(?:\+91|0)?([6-9]\d{9})$`, returning
capture group 1.  The three alternatives of the optional prefix are mutually
exclusive on any given input, so the if-chain is exactly the regex semantics. -/
def indianMatch (number : String) : Option String :=
  let l := number.toList
  if l.take 3 = ['+', '9', '1'] && isIndianCore (l.drop 3) then
    some (String.mk (l.drop 3))
  else if l.take 1 = ['0'] && isIndianCore (l.drop 1) then
    some (String.mk (l.drop 1))
  else if isIndianCore l then
    some number
  else
    none

/-- Rejection reason used by `validate_number` on an Indian-number match. -/
def SAFETY_REASON : String :=
  "Indian numbers detected. Autodialer only places calls to Twilio test numbers (starting with +1500...) for safety."

/-- Rejection reason used by `validate_number` for all other invalid inputs. -/
def INVALID_REASON : String :=
  "Invalid phone number format. Provide Twilio test numbers e.g. +15005550006."

/-- Model of `validate_number` from `app/utils.py`. -/
def validate_number (number : String) : NumberValidationResult :=
  if startsWithStr number TWILIO_TEST_NUMBER_START then
    ⟨number, true, none⟩
  else
    match indianMatch number with
    | some g => ⟨"+91" ++ g, false, some SAFETY_REASON⟩
    | none => ⟨number, false, some INVALID_REASON⟩

/-- Character class `[0-?]` of `ANSI_ESCAPE_REGEX` (parameter bytes). -/
def isCsiParam (c : Char) : Bool := '0' ≤ c && c ≤ '?'

/-- Character class of `ANSI_ESCAPE_REGEX` for intermediate bytes, `0x20` to `0x2F`. -/
def isCsiInter (c : Char) : Bool := ' ' ≤ c && c ≤ '/'

/-- Character class of `ANSI_ESCAPE_REGEX` for the final byte, `0x40` to `0x7E`. -/
def isCsiFinal (c : Char) : Bool := '@' ≤ c && c ≤ '~'

/-- Greedy match of the regex body (params, then intermediates, then one final
byte) at the front of `l`; returns the rest of the input after the match.  The
three classes are disjoint, so the greedy match is deterministic (no
backtracking can succeed where this fails). -/
def csiTail (l : List Char) : Option (List Char) :=
  match (l.dropWhile isCsiParam).dropWhile isCsiInter with
  | c :: rest => if isCsiFinal c then some rest else none
  | [] => none

/-- The scan performed by substituting `ANSI_ESCAPE_REGEX` matches with the
empty string: non-overlapping left-to-right removal of every CSI escape
sequence (ESC, an opening square bracket, parameter bytes, intermediate bytes,
one final byte).  Structural recursion on a fuel argument so the function is
kernel-computable; `csiTail` always returns a strictly shorter list, so fuel
equal to the input length (as used by `stripAnsiChars`) never runs out. -/
def stripAnsiFuel : Nat → List Char → List Char
  | 0, l => l
  | _ + 1, [] => []
  | fuel + 1, '\x1B' :: '[' :: r2 =>
      (match csiTail r2 with
       | some r3 => stripAnsiFuel fuel r3
       | none => '\x1B' :: stripAnsiFuel fuel ('[' :: r2))
  | fuel + 1, c :: rest => c :: stripAnsiFuel fuel rest

/-- Removal of every ANSI CSI escape sequence from a character list. -/
def stripAnsiChars (l : List Char) : List Char := stripAnsiFuel l.length l

/-- Model of `strip_ansi` from `app/utils.py`: `None` and the empty string are returned
unchanged (`if not value: return value`); otherwise all ANSI escape sequences
are removed. -/
def strip_ansi (value : Option String) : Option String :=
  match value with
  | none => none
  | some s => if s = "" then some s else some (String.mk (stripAnsiChars s.toList))

/-! ## `app/services/twilio_service.py` — the transport -/

/-- The `ValueError` message raised by `ensure_test_mode`. -/
def VALUE_ERROR_MSG : String :=
  "Only Twilio test numbers are permitted. Use numbers beginning with +1500."

/-- Model of `TwilioService.ensure_test_mode`: raises `ValueError` (modelled as
`Except.error`) when the number is outside the Twilio test range. -/
def ensure_test_mode (number : String) : Except String Unit :=
  if startsWithStr number TWILIO_TEST_NUMBER_START then Except.ok ()
  else Except.error VALUE_ERROR_MSG

/-- Abstract behaviour of the Twilio network for one attempted call: the
provider call either returns a call object (sid and optional duration), raises
a `TwilioRestException`, or raises some other exception. -/
inductive NetOutcome where
  | ok (sid : String) (duration : Option Nat)
  | restError (msg : String)
  | unexpected (msg : String)
deriving DecidableEq, Repr

/-- What a call to `TwilioService.place_call` does as seen by the caller: either it raises the `ValueError` from `ensure_test_mode` (`rejected`),
or it returns a `CallResult` — every non-`ValueError` exception is caught
inside `place_call` and converted to a failure result. -/
inductive PlaceCallOutcome where
  | rejected (reason : String)
  | result (r : CallResult)
deriving DecidableEq, Repr

/-- Model of `TwilioService.place_call` from `app/services/twilio_service.py`, with the
network behaviour supplied as an oracle. -/
def place_call (to_number : String) (message : String) (net : NetOutcome) :
    PlaceCallOutcome :=
  match ensure_test_mode to_number with
  | Except.error e => PlaceCallOutcome.rejected e
  | Except.ok _ =>
      match net with
      | NetOutcome.ok sid dur => PlaceCallOutcome.result ⟨true, some sid, dur, none⟩
      | NetOutcome.restError m =>
          PlaceCallOutcome.result ⟨false, none, none, strip_ansi (some m)⟩
      | NetOutcome.unexpected m =>
          PlaceCallOutcome.result ⟨false, none, none, strip_ansi (some ("Unexpected error: " ++ m))⟩

/-! ## `app/services/call_manager.py` — builder, sequencer, finaliser -/

/-- Model of `RATE_LIMIT_SECONDS = 2.5` from `app/services/call_manager.py`. -/
def RATE_LIMIT_SECONDS : ℚ := 5 / 2

/-- Model of `enqueue_calls`: persist each number as a queued `CallLog` row (ids are
assigned sequentially from `nextId`, modelling the autoincrement primary key)
and return the in-memory tasks in the same order.  Returns the tasks, the
store after the final commit, and the next free id. -/
def enqueue_calls (numbers : List String) (message : String) (nextId : Nat)
    (st : Store) : List CallTask × Store × Nat :=
  match numbers with
  | [] => ([], st, nextId)
  | n :: rest =>
      let log : CallRecord := ⟨n, message, CallStatus.queued, none, none, none⟩
      let out := enqueue_calls rest message (nextId + 1) (st ++ [(nextId, log)])
      (⟨nextId, n, message⟩ :: out.1, out.2)

/-- Model of `_update_status`: fetch the row, silently return when it is gone, else
`mark` the new status (and optional error) and commit. -/
def update_status (call_id : Nat) (status : CallStatus) (error : Option String)
    (st : Store) : Store :=
  match st.get? call_id with
  | none => st
  | some log => st.set call_id (log.mark status none error none)

/-- Model of `_finalise`: map the transport result onto `success` or `failed` and
persist duration, error and sid from the result; no-op when the row is gone. -/
def finalise (call_id : Nat) (result : CallResult) (st : Store) : Store :=
  let status := if result.success then CallStatus.success else CallStatus.failed
  match st.get? call_id with
  | none => st
  | some log => st.set call_id (log.mark status result.duration result.error result.sid)

/-- The terminal update performed after dispatch: the `except ValueError`
branch marks `skipped` with the rejection text, otherwise `_finalise` runs. -/
def dispatchUpdate (task : CallTask) (oc : PlaceCallOutcome) (st : Store) : Store :=
  match oc with
  | PlaceCallOutcome.rejected reason => update_status task.id CallStatus.skipped (some reason) st
  | PlaceCallOutcome.result r => finalise task.id r st

/-- One iteration of the `for task in tasks` loop of `execute_call_sequence`:
mark `in_progress`, sleep, call the transport, record the terminal outcome. -/
def processTask (task : CallTask) (net : NetOutcome) (st : Store) : Store :=
  dispatchUpdate task (place_call task.number task.message net)
    (update_status task.id CallStatus.in_progress none st)

/-- Model of `execute_call_sequence`, paired with the network behaviour of each task. -/
def execute_call_sequence : List (CallTask × NetOutcome) → Store → Store
  | [], st => st
  | (t, n) :: rest, st => execute_call_sequence rest (processTask t n st)

/-- Observable events of one sequencer run: each storage update (with the
status written and whether the row was found), each `asyncio.sleep`, and each
invocation of the transport (`place_call`). -/
inductive Ev where
  | update (id : Nat) (status : CallStatus) (found : Bool)
  | sleep (d : ℚ)
  | dispatch (number : String)
deriving DecidableEq, Repr

/-- The events emitted by one loop iteration, in program order: the
`in_progress` update, the rate-limit sleep, the transport call, and the
terminal update. -/
def taskEvents (task : CallTask) (net : NetOutcome) (st : Store) : List Ev :=
  let st1 := update_status task.id CallStatus.in_progress none st
  let term : CallStatus :=
    match place_call task.number task.message net with
    | PlaceCallOutcome.rejected _ => CallStatus.skipped
    | PlaceCallOutcome.result r => if r.success then CallStatus.success else CallStatus.failed
  [ Ev.update task.id CallStatus.in_progress (st.get? task.id).isSome,
    Ev.sleep RATE_LIMIT_SECONDS,
    Ev.dispatch task.number,
    Ev.update task.id term (st1.get? task.id).isSome ]

/-- The full event trace of a sequencer run. -/
def runTrace : List (CallTask × NetOutcome) → Store → List Ev
  | [], _ => []
  | (t, n) :: rest, st => taskEvents t n st ++ runTrace rest (processTask t n st)

/-- Every store the database passes through during a run: the initial store
and the store after each of the two commits of every iteration. -/
def runStores : List (CallTask × NetOutcome) → Store → List Store
  | [], st => [st]
  | (t, n) :: rest, st =>
      let st1 := update_status t.id CallStatus.in_progress none st
      st :: st1 :: runStores rest (dispatchUpdate t (place_call t.number t.message n) st1)

/-! ## Specification predicates over the model -/

/-- The record-level data invariant of the spec: `duration` and the external
reference are non-null only on `success` records, `error` only on `failed` or
`skipped` records. -/
def RecInv (r : CallRecord) : Prop :=
  (r.duration ≠ none → r.status = CallStatus.success) ∧
  (r.callSid ≠ none → r.status = CallStatus.success) ∧
  (r.error ≠ none → r.status = CallStatus.failed ∨ r.status = CallStatus.skipped)

instance (r : CallRecord) : Decidable (RecInv r) := by
  unfold RecInv; infer_instance

/-- All records of a store satisfy `RecInv`. -/
def StoreInv (st : Store) : Prop := ∀ p ∈ st, RecInv p.2

/-- A freshly created record: `queued` with all optional fields null — the
state every row is in right after the Task Queue Builder commits it. -/
def QueuedNull (r : CallRecord) : Prop :=
  r.status = CallStatus.queued ∧ r.duration = none ∧ r.error = none ∧ r.callSid = none

/-- Pacing predicate on an event trace: `pending` accumulates the slept time
since the last transport dispatch, `started` records whether a dispatch has
happened yet.  It holds when every dispatch after the first is preceded by at
least `RATE_LIMIT_SECONDS` of accumulated sleep since the previous one. -/
def pacedFrom (pending : ℚ) (started : Bool) : List Ev → Prop
  | [] => True
  | Ev.sleep d :: rest => pacedFrom (pending + d) started rest
  | Ev.dispatch _ :: rest =>
      (started = true → RATE_LIMIT_SECONDS ≤ pending) ∧ pacedFrom 0 true rest
  | _ :: rest => pacedFrom pending started rest

/-- The two events allowed to immediately precede a transport dispatch: the
rate-limit sleep, itself preceded by the `in_progress` status update. -/
def dispOK (window : List Ev) : Prop :=
  match window with
  | [Ev.sleep d, Ev.update _ CallStatus.in_progress _] => d = RATE_LIMIT_SECONDS
  | _ => False

/-- Sliding two-event window, most recent event first. -/
def stepWindow (window : List Ev) (e : Ev) : List Ev := e :: window.take 1

/-- Every dispatch in the trace is immediately preceded by the `in_progress`
update followed by the full rate-limit sleep. -/
def guardedFrom (window : List Ev) : List Ev → Prop
  | [] => True
  | e :: rest =>
      (match e with
       | Ev.dispatch _ => dispOK window
       | _ => True) ∧ guardedFrom (stepWindow window e) rest

/-! ## Fallible-storage variants

The Python storage collaborator can raise on any commit/flush (the unit of
work that writes to the database).  These variants thread explicit Boolean
failure flags: `true` means that particular commit raises.  `execute_call_sequence`
wraps only the transport call in `try/except ValueError`, so a storage error
escapes the loop; on error the durable store at that moment is returned with
the message. -/

/-- Model of `_update_status` with a fallible commit. -/
def update_statusE (call_id : Nat) (status : CallStatus) (error : Option String)
    (st : Store) (commitRaises : Bool) : Except (String × Store) Store :=
  match st.get? call_id with
  | none => Except.ok st
  | some log =>
      if commitRaises then Except.error ("commit failed", st)
      else Except.ok (st.set call_id (log.mark status none error none))

/-- Model of `_finalise` with a fallible commit. -/
def finaliseE (call_id : Nat) (result : CallResult) (st : Store)
    (commitRaises : Bool) : Except (String × Store) Store :=
  let status := if result.success then CallStatus.success else CallStatus.failed
  match st.get? call_id with
  | none => Except.ok st
  | some log =>
      if commitRaises then Except.error ("commit failed", st)
      else Except.ok (st.set call_id (log.mark status result.duration result.error result.sid))

/-- Model of `execute_call_sequence` with fallible storage: per task, the network
behaviour and the failure flags of the two commits of that iteration.  Only
`ValueError` from the transport is caught; a storage exception propagates out
of the loop, carrying the durable store at the moment it was raised. -/
def execute_call_sequenceE :
    List (CallTask × NetOutcome × Bool × Bool) → Store → Except (String × Store) Store
  | [], st => Except.ok st
  | (t, n, f1, f2) :: rest, st =>
      match update_statusE t.id CallStatus.in_progress none st f1 with
      | Except.error e => Except.error e
      | Except.ok st1 =>
          match place_call t.number t.message n with
          | PlaceCallOutcome.rejected reason =>
              match update_statusE t.id CallStatus.skipped (some reason) st1 f2 with
              | Except.error e => Except.error e
              | Except.ok st2 => execute_call_sequenceE rest st2
          | PlaceCallOutcome.result r =>
              match finaliseE t.id r st1 f2 with
              | Except.error e => Except.error e
              | Except.ok st2 => execute_call_sequenceE rest st2

/-- Model of `enqueue_calls` with fallible storage: per number, whether that item
flush (`session.flush()`) raises; `commitRaises` is the final `session.commit()`.  The
pending rows of the session become durable only at that final commit; on any raise
the whole batch is lost (the context manager rolls back) and the exception
propagates to the caller. -/
def enqueueLoopE : List (String × Bool) → String → Nat →
    Except String (List CallTask × List (Nat × CallRecord) × Nat)
  | [], _, nextId => Except.ok ([], [], nextId)
  | (n, flushRaises) :: rest, message, nextId =>
      if flushRaises then Except.error "flush failed"
      else
        match enqueueLoopE rest message (nextId + 1) with
        | Except.error e => Except.error e
        | Except.ok (tasks, pending, nid) =>
            Except.ok (⟨nextId, n, message⟩ :: tasks,
              (nextId, ⟨n, message, CallStatus.queued, none, none, none⟩) :: pending, nid)

/-- Model of `enqueue_calls` with fallible storage (see `enqueueLoopE`). -/
def enqueue_callsE (items : List (String × Bool)) (message : String) (nextId : Nat)
    (st : Store) (commitRaises : Bool) : Except String (List CallTask × Store × Nat) :=
  match enqueueLoopE items message nextId with
  | Except.error e => Except.error e
  | Except.ok (tasks, pending, nid) =>
      if commitRaises then Except.error "commit failed"
      else Except.ok (tasks, st ++ pending, nid)

/-! ## Basic lemmas about the store -/

theorem Store.get?_set_self (st : Store) (id : Nat) (r : CallRecord) :
    (st.set id r).get? id = (st.get? id).map (fun _ => r) := by
  induction st with
  | nil => rfl
  | cons p rest ih =>
      obtain ⟨k, r0⟩ := p
      by_cases h : k = id <;> simp [Store.set, Store.get?, h, ih]

theorem Store.get?_set_ne (st : Store) (id id' : Nat) (r : CallRecord) (h : id' ≠ id) :
    (st.set id r).get? id' = st.get? id' := by
  induction st with
  | nil => rfl
  | cons p rest ih =>
      obtain ⟨k, r0⟩ := p
      by_cases hk : k = id
      · subst hk
        have hne : ¬ k = id' := fun hc => h hc.symm
        simp [Store.set, Store.get?, hne, ih]
      · by_cases hk' : k = id' <;> simp [Store.set, Store.get?, hk, hk', h, ih]

theorem Store.mem_set (p : Nat × CallRecord) (st : Store) (id : Nat) (r : CallRecord)
    (hp : p ∈ st.set id r) : p.2 = r ∨ p ∈ st := by
  induction st with
  | nil => cases hp
  | cons q rest ih =>
      obtain ⟨k, r0⟩ := q
      by_cases hk : k = id
      · simp only [Store.set, if_pos hk] at hp
        rcases List.mem_cons.mp hp with h | h
        · left; rw [h]
        · rcases ih h with h' | h'
          · left; exact h'
          · right; exact List.mem_cons_of_mem _ h'
      · simp only [Store.set, if_neg hk] at hp
        rcases List.mem_cons.mp hp with h | h
        · right; rw [h]; exact List.mem_cons_self _ _
        · rcases ih h with h' | h'
          · left; exact h'
          · right; exact List.mem_cons_of_mem _ h'

theorem update_status_missing (call_id : Nat) (status : CallStatus)
    (error : Option String) (st : Store) (h : st.get? call_id = none) :
    update_status call_id status error st = st := by
  unfold update_status; rw [h]

theorem update_status_found (call_id : Nat) (status : CallStatus)
    (error : Option String) (st : Store) (log : CallRecord)
    (h : st.get? call_id = some log) :
    update_status call_id status error st = st.set call_id (log.mark status none error none) := by
  unfold update_status; rw [h]

theorem finalise_missing (call_id : Nat) (result : CallResult) (st : Store)
    (h : st.get? call_id = none) : finalise call_id result st = st := by
  unfold finalise; rw [h]

theorem finalise_found (call_id : Nat) (result : CallResult) (st : Store)
    (log : CallRecord) (h : st.get? call_id = some log) :
    finalise call_id result st =
      st.set call_id (log.mark (if result.success then CallStatus.success else CallStatus.failed)
        result.duration result.error result.sid) := by
  unfold finalise; rw [h]

theorem update_status_get?_ne (call_id : Nat) (status : CallStatus)
    (error : Option String) (st : Store) (id' : Nat) (h : id' ≠ call_id) :
    (update_status call_id status error st).get? id' = st.get? id' := by
  unfold update_status
  cases hg : st.get? call_id with
  | none => rfl
  | some log => exact Store.get?_set_ne st call_id id' _ h

theorem finalise_get?_ne (call_id : Nat) (result : CallResult) (st : Store)
    (id' : Nat) (h : id' ≠ call_id) :
    (finalise call_id result st).get? id' = st.get? id' := by
  unfold finalise
  cases hg : st.get? call_id with
  | none => rfl
  | some log => exact Store.get?_set_ne st call_id id' _ h

theorem dispatchUpdate_get?_ne (t : CallTask) (oc : PlaceCallOutcome) (st : Store)
    (id' : Nat) (h : id' ≠ t.id) :
    (dispatchUpdate t oc st).get? id' = st.get? id' := by
  cases oc with
  | rejected reason => exact update_status_get?_ne _ _ _ _ _ h
  | result r => exact finalise_get?_ne _ _ _ _ h

theorem processTask_get?_ne (t : CallTask) (n : NetOutcome) (st : Store)
    (id' : Nat) (h : id' ≠ t.id) :
    (processTask t n st).get? id' = st.get? id' := by
  unfold processTask
  rw [dispatchUpdate_get?_ne _ _ _ _ h, update_status_get?_ne _ _ _ _ _ h]

theorem execute_get?_not_mem (l : List (CallTask × NetOutcome)) (st : Store)
    (id : Nat) (h : ∀ x ∈ l, id ≠ x.1.id) :
    (execute_call_sequence l st).get? id = st.get? id := by
  induction l generalizing st with
  | nil => rfl
  | cons x rest ih =>
      obtain ⟨t, n⟩ := x
      rw [execute_call_sequence, ih _ (fun y hy => h y (List.mem_cons_of_mem _ hy)),
        processTask_get?_ne _ _ _ _ (h (t, n) (List.mem_cons_self _ _))]

theorem runStores_get?_not_mem (l : List (CallTask × NetOutcome)) (st : Store)
    (id : Nat) (h : ∀ x ∈ l, id ≠ x.1.id) :
    ∀ s ∈ runStores l st, s.get? id = st.get? id := by
  induction l generalizing st with
  | nil =>
      intro s hs
      simp only [runStores, List.mem_singleton] at hs
      rw [hs]
  | cons x rest ih =>
      obtain ⟨t, n⟩ := x
      intro s hs
      simp only [runStores, List.mem_cons] at hs
      have hne : id ≠ t.id := h (t, n) (List.mem_cons_self _ _)
      rcases hs with h1 | h2 | h3
      · rw [h1]
      · rw [h2, update_status_get?_ne _ _ _ _ _ hne]
      · rw [ih _ (fun y hy => h y (List.mem_cons_of_mem _ hy)) s h3,
          dispatchUpdate_get?_ne _ _ _ _ hne, update_status_get?_ne _ _ _ _ _ hne]

/-! ## Per-task behaviour of the sequencer loop body -/

theorem processTask_missing (t : CallTask) (n : NetOutcome) (st : Store)
    (h : st.get? t.id = none) : processTask t n st = st := by
  unfold processTask
  rw [update_status_missing _ _ _ _ h]
  cases hpc : place_call t.number t.message n with
  | rejected reason => exact update_status_missing _ _ _ _ h
  | result r => exact finalise_missing _ _ _ h

theorem processTask_rejected (t : CallTask) (n : NetOutcome) (st : Store)
    (rec : CallRecord) (reason : String)
    (hget : st.get? t.id = some rec)
    (hr : place_call t.number t.message n = PlaceCallOutcome.rejected reason) :
    (processTask t n st).get? t.id =
      some ((rec.mark CallStatus.in_progress none none none).mark
        CallStatus.skipped none (some reason) none) := by
  unfold processTask
  rw [update_status_found _ _ _ _ _ hget, hr]
  have h1 : (st.set t.id (rec.mark CallStatus.in_progress none none none)).get? t.id =
      some (rec.mark CallStatus.in_progress none none none) := by
    rw [Store.get?_set_self, hget]; rfl
  unfold dispatchUpdate
  dsimp only
  rw [update_status_found _ _ _ _ _ h1, Store.get?_set_self, h1]
  rfl

theorem processTask_result (t : CallTask) (n : NetOutcome) (st : Store)
    (rec : CallRecord) (r : CallResult)
    (hget : st.get? t.id = some rec)
    (hr : place_call t.number t.message n = PlaceCallOutcome.result r) :
    (processTask t n st).get? t.id =
      some ((rec.mark CallStatus.in_progress none none none).mark
        (if r.success then CallStatus.success else CallStatus.failed)
        r.duration r.error r.sid) := by
  unfold processTask
  rw [update_status_found _ _ _ _ _ hget, hr]
  have h1 : (st.set t.id (rec.mark CallStatus.in_progress none none none)).get? t.id =
      some (rec.mark CallStatus.in_progress none none none) := by
    rw [Store.get?_set_self, hget]; rfl
  unfold dispatchUpdate
  dsimp only
  rw [finalise_found _ _ _ _ h1, Store.get?_set_self, h1]
  rfl

/-- Shape of every successful result `place_call` can return: the sid is set
and the error is empty. -/
theorem place_call_success_shape (number message : String) (n : NetOutcome)
    (r : CallResult) (hr : place_call number message n = PlaceCallOutcome.result r)
    (hs : r.success = true) : r.error = none ∧ ∃ sid, r.sid = some sid := by
  unfold place_call ensure_test_mode at hr
  by_cases hp : startsWithStr number TWILIO_TEST_NUMBER_START = true
  · rw [if_pos hp] at hr
    cases n with
    | ok sid dur =>
        simp only at hr
        cases hr
        exact ⟨rfl, sid, rfl⟩
    | restError m => simp only at hr; cases hr; cases hs
    | unexpected m => simp only at hr; cases hr; cases hs
  · rw [if_neg hp] at hr; cases hr

/-- Shape of every failure result `place_call` can return: no sid, no
duration, and the error text present (the stripped exception text). -/
theorem place_call_failure_shape (number message : String) (n : NetOutcome)
    (r : CallResult) (hr : place_call number message n = PlaceCallOutcome.result r)
    (hs : r.success = false) : r.duration = none ∧ r.sid = none := by
  unfold place_call ensure_test_mode at hr
  by_cases hp : startsWithStr number TWILIO_TEST_NUMBER_START = true
  · rw [if_pos hp] at hr
    cases n with
    | ok sid dur => simp only at hr; cases hr; cases hs
    | restError m => simp only at hr; cases hr; exact ⟨rfl, rfl⟩
    | unexpected m => simp only at hr; cases hr; exact ⟨rfl, rfl⟩
  · rw [if_neg hp] at hr; cases hr

/-- C1: for every task processed by the Call Sequencer whose record exists
(with the optional fields still null, as for every record the pipeline
creates), the dispatch outcome determines exactly one terminal state with the
matching fields: a transport `ValueError` gives `skipped` with the rejection
reason as error detail; a result with `success = true` gives `success` with
duration and external reference copied from the result and a null error
detail; a result with `success = false` gives `failed` with the error detail
copied and null duration and external reference.  In each case the sequencer
then continues with the remaining tasks. -/
theorem C1_dispatch_outcome_determines_terminal_state
    (t : CallTask) (n : NetOutcome) (st : Store) (rec : CallRecord)
    (hget : st.get? t.id = some rec)
    (hdur : rec.duration = none) (herr : rec.error = none) (hsid : rec.callSid = none) :
    (∀ reason, place_call t.number t.message n = PlaceCallOutcome.rejected reason →
       (processTask t n st).get? t.id =
         some ⟨rec.number, rec.message, CallStatus.skipped, none, some reason, none⟩)
  ∧ (∀ r, place_call t.number t.message n = PlaceCallOutcome.result r → r.success = true →
       (processTask t n st).get? t.id =
         some ⟨rec.number, rec.message, CallStatus.success, r.duration, none, r.sid⟩)
  ∧ (∀ r, place_call t.number t.message n = PlaceCallOutcome.result r → r.success = false →
       (processTask t n st).get? t.id =
         some ⟨rec.number, rec.message, CallStatus.failed, none, r.error, none⟩)
  ∧ (∀ rest, execute_call_sequence ((t, n) :: rest) st =
       execute_call_sequence rest (processTask t n st)) := by
  refine ⟨?_, ?_, ?_, fun rest => rfl⟩
  · intro reason hr
    rw [processTask_rejected t n st rec reason hget hr]
    simp [CallRecord.mark, hdur, herr, hsid]
  · intro r hr hs
    obtain ⟨he, sid, hs'⟩ := place_call_success_shape _ _ _ _ hr hs
    rw [processTask_result t n st rec r hget hr]
    cases hd : r.duration <;>
      simp [CallRecord.mark, hdur, herr, hsid, hs, he, hs', hd]
  · intro r hr hs
    obtain ⟨hd, hs'⟩ := place_call_failure_shape _ _ _ _ hr hs
    cases herr' : r.error with
    | none =>
        rw [processTask_result t n st rec r hget hr]
        simp [CallRecord.mark, hdur, herr, hsid, hs, hd, hs', herr']
    | some e =>
        rw [processTask_result t n st rec r hget hr]
        simp [CallRecord.mark, hdur, herr, hsid, hs, hd, hs', herr']

/-- Witness for C1 at a concrete successful call. -/
theorem C1_dispatch_outcome_witness :
    (processTask ⟨1, "+15005550006", "hello"⟩ (NetOutcome.ok "CA42" (some 7))
        [(1, ⟨"+15005550006", "hello", CallStatus.queued, none, none, none⟩)]).get? 1 =
      some ⟨"+15005550006", "hello", CallStatus.success, some 7, none, some "CA42"⟩ :=
  (C1_dispatch_outcome_determines_terminal_state
      ⟨1, "+15005550006", "hello"⟩ (NetOutcome.ok "CA42" (some 7))
      [(1, ⟨"+15005550006", "hello", CallStatus.queued, none, none, none⟩)]
      ⟨"+15005550006", "hello", CallStatus.queued, none, none, none⟩
      rfl rfl rfl rfl).2.1 ⟨true, some "CA42", some 7, none⟩ rfl rfl

/-- C5: the Number Gate is a total function (it always returns a verdict,
with no side effects and no exception path in the model), and the verdict is
a trichotomy: a candidate starting with the test allow-list marker is accepted
as-is; otherwise a candidate matching the Indian numbering pattern is rejected
with the specific safety reason; every other candidate is rejected with the
generic invalid-format reason. -/
theorem C5_number_gate_trichotomy (s : String) :
    (startsWithStr s TWILIO_TEST_NUMBER_START = true ∧
       validate_number s = ⟨s, true, none⟩)
  ∨ (startsWithStr s TWILIO_TEST_NUMBER_START = false ∧
       (∃ g, indianMatch s = some g ∧
          validate_number s = ⟨"+91" ++ g, false, some SAFETY_REASON⟩))
  ∨ (startsWithStr s TWILIO_TEST_NUMBER_START = false ∧ indianMatch s = none ∧
       validate_number s = ⟨s, false, some INVALID_REASON⟩) := by
  by_cases h : startsWithStr s TWILIO_TEST_NUMBER_START = true
  · exact Or.inl ⟨h, by simp [validate_number, h]⟩
  · have h' : startsWithStr s TWILIO_TEST_NUMBER_START = false := by
      simpa using h
    cases hm : indianMatch s with
    | some g =>
        refine Or.inr (Or.inl ⟨h', g, rfl, ?_⟩)
        simp [validate_number, h', hm]
    | none =>
        refine Or.inr (Or.inr ⟨h', rfl, ?_⟩)
        simp [validate_number, h', hm]

/-- C10: every number the Number Gate accepts also passes the dispatch-time
safety gate: `ensure_test_mode` does not raise on it, and `place_call` on it
always returns a structured result, so the skipped-at-dispatch branch caused
by the transport safety check is unreachable for gate-accepted numbers. -/
theorem C10_gate_accepted_never_rejected_at_dispatch (s : String)
    (h : (validate_number s).is_valid = true) :
    ensure_test_mode (validate_number s).number = Except.ok () ∧
    (∀ message net, ∃ r,
       place_call (validate_number s).number message net = PlaceCallOutcome.result r) := by
  have hp : startsWithStr s TWILIO_TEST_NUMBER_START = true := by
    by_contra hc
    have hc' : startsWithStr s TWILIO_TEST_NUMBER_START = false := by simpa using hc
    unfold validate_number at h
    rw [hc'] at h
    cases hm : indianMatch s with
    | some g => rw [hm] at h; simp at h
    | none => rw [hm] at h; simp at h
  have hnum : (validate_number s).number = s := by simp [validate_number, hp]
  rw [hnum]
  refine ⟨by simp [ensure_test_mode, hp], fun message net => ?_⟩
  cases net with
  | ok sid dur =>
      exact ⟨⟨true, some sid, dur, none⟩, by simp [place_call, ensure_test_mode, hp]⟩
  | restError m =>
      exact ⟨⟨false, none, none, strip_ansi (some m)⟩,
        by simp [place_call, ensure_test_mode, hp]⟩
  | unexpected m =>
      exact ⟨⟨false, none, none, strip_ansi (some ("Unexpected error: " ++ m))⟩,
        by simp [place_call, ensure_test_mode, hp]⟩

/-- Witness for C10 at a concrete accepted number. -/
theorem C10_gate_accepted_witness :
    ensure_test_mode (validate_number "+15005550006").number = Except.ok () ∧
    (∃ r, place_call (validate_number "+15005550006").number "hi"
        (NetOutcome.restError "boom") = PlaceCallOutcome.result r) :=
  ⟨(C10_gate_accepted_never_rejected_at_dispatch "+15005550006" (by decide)).1,
   (C10_gate_accepted_never_rejected_at_dispatch "+15005550006" (by decide)).2
     "hi" (NetOutcome.restError "boom")⟩

/-- C8: the Outcome Finalizer is a no-op when the record no longer exists,
whatever the transport result: the store is unchanged and no error is raised
(in the fallible-storage model the operation returns normally — no commit is
even attempted). -/
theorem C8_finalise_missing_record_noop (call_id : Nat) (result : CallResult)
    (st : Store) (commitRaises : Bool) (h : st.get? call_id = none) :
    finalise call_id result st = st ∧
    finaliseE call_id result st commitRaises = Except.ok st := by
  refine ⟨finalise_missing _ _ _ h, ?_⟩
  unfold finaliseE
  rw [h]

/-- Witness for C8 on an empty store with a would-fail commit. -/
theorem C8_finalise_missing_record_witness :
    finalise 5 ⟨false, none, none, some "x"⟩ [] = [] ∧
    finaliseE 5 ⟨false, none, none, some "x"⟩ [] true = Except.ok [] :=
  C8_finalise_missing_record_noop 5 ⟨false, none, none, some "x"⟩ [] true rfl

theorem strip_ansi_some (m : String) : ∃ x, strip_ansi (some m) = some x := by
  unfold strip_ansi
  by_cases h : m = "" <;> simp [h]

/-- C9: for every transport failure — the provider reported failure
(`TwilioRestException`) or an unexpected exception was raised while attempting
the call — the error detail recorded on the `failed` record is the failure
text passed through `strip_ansi` (control characters and formatting artifacts
stripped) before storage. -/
theorem C9_failed_error_detail_is_stripped (t : CallTask) (st : Store)
    (rec : CallRecord) (m : String)
    (hnum : startsWithStr t.number TWILIO_TEST_NUMBER_START = true)
    (hget : st.get? t.id = some rec) :
    (∃ rec', (processTask t (NetOutcome.restError m) st).get? t.id = some rec' ∧
       rec'.status = CallStatus.failed ∧ rec'.error = strip_ansi (some m))
  ∧ (∃ rec', (processTask t (NetOutcome.unexpected m) st).get? t.id = some rec' ∧
       rec'.status = CallStatus.failed ∧
       rec'.error = strip_ansi (some ("Unexpected error: " ++ m))) := by
  constructor
  · have hr : place_call t.number t.message (NetOutcome.restError m) =
        PlaceCallOutcome.result ⟨false, none, none, strip_ansi (some m)⟩ := by
      simp [place_call, ensure_test_mode, hnum]
    refine ⟨_, processTask_result t _ st rec _ hget hr, ?_, ?_⟩
    · rfl
    · obtain ⟨x, hx⟩ := strip_ansi_some m
      simp [CallRecord.mark, hx]
  · have hr : place_call t.number t.message (NetOutcome.unexpected m) =
        PlaceCallOutcome.result
          ⟨false, none, none, strip_ansi (some ("Unexpected error: " ++ m))⟩ := by
      simp [place_call, ensure_test_mode, hnum]
    refine ⟨_, processTask_result t _ st rec _ hget hr, ?_, ?_⟩
    · rfl
    · obtain ⟨x, hx⟩ := strip_ansi_some ("Unexpected error: " ++ m)
      simp [CallRecord.mark, hx]

/-- Witness for C9: a provider failure whose text carries ANSI colour codes is
stored with the codes stripped. -/
theorem C9_failed_error_detail_witness :
    (∃ rec', (processTask ⟨1, "+15005550006", "hi"⟩
        (NetOutcome.restError "\x1B[31mError\x1B[0m boom")
        [(1, ⟨"+15005550006", "hi", CallStatus.queued, none, none, none⟩)]).get? 1 =
          some rec' ∧
       rec'.status = CallStatus.failed ∧
       rec'.error = strip_ansi (some "\x1B[31mError\x1B[0m boom")) ∧
    strip_ansi (some "\x1B[31mError\x1B[0m boom") = some "Error boom" :=
  ⟨(C9_failed_error_detail_is_stripped ⟨1, "+15005550006", "hi"⟩
      [(1, ⟨"+15005550006", "hi", CallStatus.queued, none, none, none⟩)]
      ⟨"+15005550006", "hi", CallStatus.queued, none, none, none⟩
      "\x1B[31mError\x1B[0m boom" rfl rfl).1,
   by decide⟩

/-- Counterexample to C3 as stated: a task whose record is absent from the
store is not abandoned — the transport dispatch for its number still appears
in the run trace (the loop never checks whether the `in_progress` update found
the row before calling the transport). -/
theorem C3_missing_record_counterexample :
    ([] : Store).get? 1 = none ∧
    Ev.dispatch "+15005550006" ∈
      runTrace [(⟨1, "+15005550006", "hi"⟩, NetOutcome.ok "CA1" none)] [] := by
  refine ⟨rfl, ?_⟩
  simp [runTrace, taskEvents]

/-- C3 amended: for a task whose record no longer exists at the
queued-to-in_progress transition, the sequencer raises no error and all its
storage updates are no-ops (the store is left unchanged), and it proceeds to
the next task — but the task is not silently abandoned: the transport dispatch
is still attempted for it. -/
theorem C3_missing_record_still_dispatches (t : CallTask) (n : NetOutcome)
    (st : Store) (rest : List (CallTask × NetOutcome)) (h : st.get? t.id = none) :
    processTask t n st = st ∧
    execute_call_sequence ((t, n) :: rest) st = execute_call_sequence rest st ∧
    Ev.dispatch t.number ∈ taskEvents t n st := by
  refine ⟨processTask_missing t n st h, ?_, ?_⟩
  · show execute_call_sequence rest (processTask t n st) = _
    rw [processTask_missing t n st h]
  · simp [taskEvents]

/-- Witness for the amended C3 at a concrete deleted record. -/
theorem C3_missing_record_witness :
    processTask ⟨1, "+15005550006", "hi"⟩ (NetOutcome.ok "CA1" none) [] = [] ∧
    execute_call_sequence [(⟨1, "+15005550006", "hi"⟩, NetOutcome.ok "CA1" none)] [] =
      execute_call_sequence [] [] ∧
    Ev.dispatch "+15005550006" ∈
      taskEvents ⟨1, "+15005550006", "hi"⟩ (NetOutcome.ok "CA1" none) [] :=
  C3_missing_record_still_dispatches ⟨1, "+15005550006", "hi"⟩
    (NetOutcome.ok "CA1" none) [] [] rfl

theorem runTrace_paced (l : List (CallTask × NetOutcome)) :
    ∀ (st : Store) (p : ℚ), 0 ≤ p → ∀ b, pacedFrom p b (runTrace l st) := by
  induction l with
  | nil => intro st p hp b; trivial
  | cons x rest ih =>
      obtain ⟨t, n⟩ := x
      intro st p hp b
      show pacedFrom p b (taskEvents t n st ++ runTrace rest (processTask t n st))
      unfold taskEvents
      simp only [List.cons_append, List.nil_append]
      show pacedFrom (p + RATE_LIMIT_SECONDS) b (Ev.dispatch t.number :: _)
      refine ⟨fun _ => le_add_of_nonneg_left hp, ?_⟩
      show pacedFrom 0 true (runTrace rest (processTask t n st))
      exact ih _ 0 le_rfl true

theorem runTrace_guarded (l : List (CallTask × NetOutcome)) :
    ∀ (st : Store) (w : List Ev), guardedFrom w (runTrace l st) := by
  induction l with
  | nil => intro st w; trivial
  | cons x rest ih =>
      obtain ⟨t, n⟩ := x
      intro st w
      show guardedFrom w (taskEvents t n st ++ runTrace rest (processTask t n st))
      unfold taskEvents
      simp only [List.cons_append, List.nil_append]
      refine ⟨trivial, trivial, ?_, trivial, ?_⟩
      · show dispOK [Ev.sleep RATE_LIMIT_SECONDS, Ev.update t.id CallStatus.in_progress _]
        rfl
      · exact ih _ _

/-- C6: in every run of the Call Sequencer, any two consecutive transport
dispatch attempts are separated by at least `RATE_LIMIT_SECONDS` of sleeping
(`pacedFrom`), and every dispatch is immediately preceded by the rate-limit
sleep, itself immediately preceded by the `in_progress` status update
(`guardedFrom`) — the wait happens after the in_progress transition is
persisted and before the dispatch. -/
theorem C6_consecutive_dispatches_paced (l : List (CallTask × NetOutcome))
    (st : Store) :
    pacedFrom 0 false (runTrace l st) ∧ guardedFrom [] (runTrace l st) :=
  ⟨runTrace_paced l st 0 le_rfl false, runTrace_guarded l st []⟩

/-! ## Lemmas about the Task Queue Builder -/

theorem enqueue_calls_numbers (numbers : List String) (message : String) :
    ∀ (nid : Nat) (st : Store),
      (enqueue_calls numbers message nid st).1.map (fun t => t.number) = numbers := by
  induction numbers with
  | nil => intro nid st; rfl
  | cons n rest ih =>
      intro nid st
      show n :: (enqueue_calls rest message (nid + 1) _).1.map (fun t => t.number) = n :: rest
      rw [ih]

theorem enqueue_calls_message (numbers : List String) (message : String) :
    ∀ (nid : Nat) (st : Store) (t : CallTask),
      t ∈ (enqueue_calls numbers message nid st).1 → t.message = message := by
  induction numbers with
  | nil => intro nid st t ht; cases ht
  | cons n rest ih =>
      intro nid st t ht
      rcases List.mem_cons.mp ht with h | h
      · rw [h]
      · exact ih _ _ _ h

theorem enqueue_calls_ids_ge (numbers : List String) (message : String) :
    ∀ (nid : Nat) (st : Store) (t : CallTask),
      t ∈ (enqueue_calls numbers message nid st).1 → nid ≤ t.id := by
  induction numbers with
  | nil => intro nid st t ht; cases ht
  | cons n rest ih =>
      intro nid st t ht
      rcases List.mem_cons.mp ht with h | h
      · rw [h]
      · exact le_trans (Nat.le_succ nid) (ih _ _ _ h)

theorem enqueue_calls_ids_nodup (numbers : List String) (message : String) :
    ∀ (nid : Nat) (st : Store),
      ((enqueue_calls numbers message nid st).1.map (fun t => t.id)).Nodup := by
  induction numbers with
  | nil => intro nid st; exact List.nodup_nil
  | cons n rest ih =>
      intro nid st
      refine List.Nodup.cons ?_ (ih _ _)
      intro hmem
      obtain ⟨t, ht, hid⟩ := List.mem_map.mp hmem
      have h1 := enqueue_calls_ids_ge rest message (nid + 1) _ t ht
      have h2 : t.id = nid := hid
      omega

theorem enqueue_calls_acc (numbers : List String) (message : String) :
    ∀ (nid : Nat) (st : Store),
      (enqueue_calls numbers message nid st).1 = (enqueue_calls numbers message nid []).1 ∧
      (enqueue_calls numbers message nid st).2.1 =
        st ++ (enqueue_calls numbers message nid []).2.1 ∧
      (enqueue_calls numbers message nid st).2.2 =
        (enqueue_calls numbers message nid []).2.2 := by
  induction numbers with
  | nil => intro nid st; exact ⟨rfl, by simp [enqueue_calls], rfl⟩
  | cons n rest ih =>
      intro nid st
      obtain ⟨ih1, ih2, ih3⟩ :=
        ih (nid + 1) (st ++ [(nid, ⟨n, message, CallStatus.queued, none, none, none⟩)])
      obtain ⟨jh1, jh2, jh3⟩ :=
        ih (nid + 1) [(nid, ⟨n, message, CallStatus.queued, none, none, none⟩)]
      refine ⟨?_, ?_, ?_⟩
      · simp only [enqueue_calls, List.nil_append]
        rw [ih1, jh1]
      · simp only [enqueue_calls, List.nil_append]
        rw [ih2, jh2]
        simp
      · simp only [enqueue_calls, List.nil_append]
        rw [ih3, jh3]

theorem enqueue_calls_store_shape (numbers : List String) (message : String) :
    ∀ nid : Nat,
      (enqueue_calls numbers message nid []).2.1 =
        (enqueue_calls numbers message nid []).1.map
          (fun t => (t.id, (⟨t.number, t.message, CallStatus.queued, none, none, none⟩ : CallRecord))) := by
  induction numbers with
  | nil => intro nid; rfl
  | cons n rest ih =>
      intro nid
      obtain ⟨h1, h2, _⟩ :=
        enqueue_calls_acc rest message (nid + 1)
          [(nid, ⟨n, message, CallStatus.queued, none, none, none⟩)]
      simp only [enqueue_calls, List.nil_append]
      rw [h1, h2, ih (nid + 1)]
      rfl

theorem get?_map_tasks (tasks : List CallTask) (f : CallTask → CallRecord) :
    ∀ t ∈ tasks, (tasks.map (fun u => u.id)).Nodup →
      Store.get? (tasks.map (fun u => (u.id, f u))) t.id = some (f t) := by
  induction tasks with
  | nil => intro t ht; cases ht
  | cons u rest ih =>
      intro t ht hnodup
      rcases List.mem_cons.mp ht with h | h
      · rw [h]
        show (if u.id = u.id then some (f u) else _) = some (f u)
        rw [if_pos rfl]
      · have hne : u.id ≠ t.id := by
          intro hc
          have hmm : t.id ∈ rest.map (fun v => v.id) := List.mem_map_of_mem _ h
          refine (List.nodup_cons.mp hnodup).1 ?_
          show u.id ∈ rest.map (fun v => v.id)
          rw [hc]
          exact hmm
        show (if u.id = t.id then some (f u) else _) = some (f t)
        rw [if_neg hne]
        exact ih t h (List.nodup_cons.mp hnodup).2

theorem enqueueLoopE_eq (numbers : List String) (message : String) :
    ∀ nid : Nat,
      enqueueLoopE (numbers.map (fun n => (n, false))) message nid =
        Except.ok (enqueue_calls numbers message nid []) := by
  induction numbers with
  | nil => intro nid; rfl
  | cons n rest ih =>
      intro nid
      rcases hE : enqueue_calls rest message (nid + 1) [] with ⟨T, S, N⟩
      obtain ⟨h1, h2, h3⟩ :=
        enqueue_calls_acc rest message (nid + 1)
          [(nid, ⟨n, message, CallStatus.queued, none, none, none⟩)]
      rw [hE] at h1 h2 h3
      show (match enqueueLoopE (rest.map (fun n => (n, false))) message (nid + 1) with
        | Except.error e => Except.error e
        | Except.ok (tasks, pending, nid') =>
            Except.ok ((⟨nid, n, message⟩ : CallTask) :: tasks,
              (nid, (⟨n, message, CallStatus.queued, none, none, none⟩ : CallRecord)) :: pending,
              nid')) = _
      rw [ih (nid + 1), hE]
      show Except.ok ((⟨nid, n, message⟩ : CallTask) :: T,
        (nid, (⟨n, message, CallStatus.queued, none, none, none⟩ : CallRecord)) :: S, N) = _
      show _ = Except.ok
        ((⟨nid, n, message⟩ : CallTask) ::
           (enqueue_calls rest message (nid + 1)
             [(nid, ⟨n, message, CallStatus.queued, none, none, none⟩)]).1,
         (enqueue_calls rest message (nid + 1)
           [(nid, ⟨n, message, CallStatus.queued, none, none, none⟩)]).2.1,
         (enqueue_calls rest message (nid + 1)
           [(nid, ⟨n, message, CallStatus.queued, none, none, none⟩)]).2.2)
      rw [h1, h2, h3]
      rfl

theorem enqueueLoopE_err (message : String) :
    ∀ (items : List (String × Bool)) (nid : Nat), (∃ x ∈ items, x.2 = true) →
      ∃ e, enqueueLoopE items message nid = Except.error e := by
  intro items
  induction items with
  | nil =>
      intro nid hx
      obtain ⟨x, hx, _⟩ := hx
      cases hx
  | cons p rest ih =>
      intro nid hx
      obtain ⟨x, hmem, hflag⟩ := hx
      obtain ⟨n, flag⟩ := p
      by_cases hf : flag = true
      · exact ⟨"flush failed", by simp [enqueueLoopE, hf]⟩
      · have hxr : x ∈ rest := by
          rcases List.mem_cons.mp hmem with h | h
          · exfalso
            rw [h] at hflag
            exact hf hflag
          · exact h
        obtain ⟨e, he⟩ := ih (nid + 1) ⟨x, hxr, hflag⟩
        exact ⟨e, by simp [enqueueLoopE, hf, he]⟩

/-- Counterexample to C4 as stated: a persistence failure on the second of
three numbers does not result in that number alone being omitted while the
rest of the batch is processed — the whole batch is aborted with an error and
no task handles are returned at all. -/
theorem C4_enqueue_counterexample :
    enqueue_callsE
        [("+15005550006", false), ("+15005550001", true), ("+15005550002", false)]
        "hi" 1 [] false = Except.error "flush failed" := rfl

/-- C4 amended: the Task Queue Builder creates one queued record per number in
input order and returns the task handles in that same input order, with every
created record committed before the handles are returned (the failure-free
fallible-storage run agrees with the plain model); but a persistence failure
for any single item is not handled per-item: the exception propagates and
aborts the whole batch, so no task handles are returned. -/
theorem C4_enqueue_order_and_abort (numbers : List String) (message : String)
    (nid : Nat) :
    enqueue_callsE (numbers.map (fun n => (n, false))) message nid [] false =
      Except.ok (enqueue_calls numbers message nid []) ∧
    (enqueue_calls numbers message nid []).1.map (fun t => t.number) = numbers ∧
    (∀ t ∈ (enqueue_calls numbers message nid []).1, t.message = message) ∧
    (∀ t ∈ (enqueue_calls numbers message nid []).1,
       Store.get? (enqueue_calls numbers message nid []).2.1 t.id =
         some ⟨t.number, t.message, CallStatus.queued, none, none, none⟩) ∧
    (∀ (items : List (String × Bool)) (st : Store) (c : Bool),
       (∃ x ∈ items, x.2 = true) →
       ∃ e, enqueue_callsE items message nid st c = Except.error e) := by
  refine ⟨?_, enqueue_calls_numbers numbers message nid [], 
    enqueue_calls_message numbers message nid [], ?_, ?_⟩
  · rcases hE : enqueue_calls numbers message nid [] with ⟨T, S, N⟩
    show (match enqueueLoopE (numbers.map (fun n => (n, false))) message nid with
      | Except.error e => Except.error e
      | Except.ok (tasks, pending, nid') =>
          if false then Except.error "commit failed"
          else Except.ok (tasks, ([] : Store) ++ pending, nid')) = _
    rw [enqueueLoopE_eq numbers message nid, hE]
    rfl
  · intro t ht
    rw [enqueue_calls_store_shape numbers message nid]
    exact get?_map_tasks _ _ t ht (enqueue_calls_ids_nodup numbers message nid [])
  · intro items st c hx
    obtain ⟨e, he⟩ := enqueueLoopE_err message items nid hx
    exact ⟨e, by simp [enqueue_callsE, he]⟩

/-- Witness for C4: a failure-free batch evaluates to the plain model, and a
batch with one failing flush aborts with an error. -/
theorem C4_enqueue_witness :
    enqueue_callsE [("+15005550006", false), ("+15005550007", false)] "hi" 1 [] false =
      Except.ok (enqueue_calls ["+15005550006", "+15005550007"] "hi" 1 []) ∧
    (∃ e, enqueue_callsE [("+15005550006", false), ("+15005550001", true)] "hi" 1 [] false =
       Except.error e) :=
  ⟨(C4_enqueue_order_and_abort ["+15005550006", "+15005550007"] "hi" 1).1,
   (C4_enqueue_order_and_abort ["+15005550006", "+15005550007"] "hi" 1).2.2.2.2
     [("+15005550006", false), ("+15005550001", true)] [] false
     ⟨("+15005550001", true), by decide, rfl⟩⟩

theorem update_statusE_ok (call_id : Nat) (status : CallStatus)
    (error : Option String) (st : Store) :
    update_statusE call_id status error st false =
      Except.ok (update_status call_id status error st) := by
  unfold update_statusE update_status
  cases st.get? call_id <;> rfl

theorem finaliseE_ok (call_id : Nat) (result : CallResult) (st : Store) :
    finaliseE call_id result st false = Except.ok (finalise call_id result st) := by
  unfold finaliseE finalise
  cases st.get? call_id <;> rfl

/-- Counterexample to C7 as stated: a storage-collaborator error while
processing the first task is not caught at task granularity — it propagates
out of the sequencer run (the run returns an error), aborting the batch with
the second task's record still `queued`. -/
theorem C7_storage_error_counterexample :
    execute_call_sequenceE
        [(⟨1, "+15005550006", "a"⟩, NetOutcome.ok "CA1" none, true, false),
         (⟨2, "+15005550007", "b"⟩, NetOutcome.ok "CA2" none, false, false)]
        [(1, ⟨"+15005550006", "a", CallStatus.queued, none, none, none⟩),
         (2, ⟨"+15005550007", "b", CallStatus.queued, none, none, none⟩)] =
      Except.error ("commit failed",
        [(1, ⟨"+15005550006", "a", CallStatus.queued, none, none, none⟩),
         (2, ⟨"+15005550007", "b", CallStatus.queued, none, none, none⟩)]) := rfl

/-- C7 amended: every error raised by the transport collaborator while
processing a task is caught at task granularity and converted into a terminal
persisted state (a `ValueError` rejection becomes `skipped`; every other
transport-internal error is already converted by `place_call` into a failure
result, which becomes `failed`), and no transport exception propagates out of
the run: whenever the storage collaborator raises no error, the fallible-model
run returns normally and agrees with the plain model for every transport
behaviour.  Errors raised by the storage collaborator are not caught (see the
counterexample). -/
theorem C7_transport_errors_caught (l : List (CallTask × NetOutcome × Bool × Bool)) :
    ∀ st : Store, (∀ x ∈ l, x.2.2.1 = false ∧ x.2.2.2 = false) →
      execute_call_sequenceE l st =
        Except.ok (execute_call_sequence (l.map (fun x => (x.1, x.2.1))) st) := by
  induction l with
  | nil => intro st h; rfl
  | cons x rest ih =>
      intro st h
      obtain ⟨t, n, f1, f2⟩ := x
      have h1 : f1 = false := (h _ (List.mem_cons_self _ _)).1
      have h2 : f2 = false := (h _ (List.mem_cons_self _ _)).2
      subst h1
      subst h2
      show (match update_statusE t.id CallStatus.in_progress none st false with
        | Except.error e => Except.error e
        | Except.ok st1 =>
            match place_call t.number t.message n with
            | PlaceCallOutcome.rejected reason =>
                match update_statusE t.id CallStatus.skipped (some reason) st1 false with
                | Except.error e => Except.error e
                | Except.ok st2 => execute_call_sequenceE rest st2
            | PlaceCallOutcome.result r =>
                match finaliseE t.id r st1 false with
                | Except.error e => Except.error e
                | Except.ok st2 => execute_call_sequenceE rest st2) = _
      rw [update_statusE_ok]
      cases hpc : place_call t.number t.message n with
      | rejected reason =>
          show (match update_statusE t.id CallStatus.skipped (some reason)
              (update_status t.id CallStatus.in_progress none st) false with
            | Except.error e => Except.error e
            | Except.ok st2 => execute_call_sequenceE rest st2) = _
          rw [update_statusE_ok]
          show execute_call_sequenceE rest _ = _
          rw [ih _ (fun y hy => h y (List.mem_cons_of_mem _ hy))]
          show _ = Except.ok (execute_call_sequence (rest.map (fun x => (x.1, x.2.1)))
            (processTask t n st))
          unfold processTask dispatchUpdate
          rw [hpc]
      | result r =>
          show (match finaliseE t.id r
              (update_status t.id CallStatus.in_progress none st) false with
            | Except.error e => Except.error e
            | Except.ok st2 => execute_call_sequenceE rest st2) = _
          rw [finaliseE_ok]
          show execute_call_sequenceE rest _ = _
          rw [ih _ (fun y hy => h y (List.mem_cons_of_mem _ hy))]
          show _ = Except.ok (execute_call_sequence (rest.map (fun x => (x.1, x.2.1)))
            (processTask t n st))
          unfold processTask dispatchUpdate
          rw [hpc]

/-- Witness for the amended C7: a concrete failure-free-storage run with a
transport rejection and a provider failure returns normally. -/
theorem C7_transport_errors_witness :
    execute_call_sequenceE
        [(⟨1, "+15005550006", "a"⟩, NetOutcome.restError "boom", false, false),
         (⟨2, "+919876543210", "b"⟩, NetOutcome.ok "CA2" none, false, false)]
        [(1, ⟨"+15005550006", "a", CallStatus.queued, none, none, none⟩),
         (2, ⟨"+919876543210", "b", CallStatus.queued, none, none, none⟩)] =
      Except.ok (execute_call_sequence
        [(⟨1, "+15005550006", "a"⟩, NetOutcome.restError "boom"),
         (⟨2, "+919876543210", "b"⟩, NetOutcome.ok "CA2" none)]
        [(1, ⟨"+15005550006", "a", CallStatus.queued, none, none, none⟩),
         (2, ⟨"+919876543210", "b", CallStatus.queued, none, none, none⟩)]) :=
  C7_transport_errors_caught
    [(⟨1, "+15005550006", "a"⟩, NetOutcome.restError "boom", false, false),
     (⟨2, "+919876543210", "b"⟩, NetOutcome.ok "CA2" none, false, false)]
    [(1, ⟨"+15005550006", "a", CallStatus.queued, none, none, none⟩),
     (2, ⟨"+919876543210", "b", CallStatus.queued, none, none, none⟩)]
    (by decide)

/-- After dispatch, the loop body always commits a terminal record satisfying
the data invariant, whatever the transport outcome. -/
theorem dispatch_terminal_record (t : CallTask) (n : NetOutcome) (st1 : Store)
    (rq1 : CallRecord) (hget : st1.get? t.id = some rq1)
    (hd : rq1.duration = none) (he : rq1.error = none) (hs : rq1.callSid = none) :
    ∃ rq2, dispatchUpdate t (place_call t.number t.message n) st1 = st1.set t.id rq2 ∧
      rq2.status.isTerminal = true ∧ RecInv rq2 := by
  cases hpc : place_call t.number t.message n with
  | rejected reason =>
      refine ⟨rq1.mark CallStatus.skipped none (some reason) none, ?_, rfl, ?_⟩
      · unfold dispatchUpdate
        dsimp only
        exact update_status_found _ _ _ _ _ hget
      · refine ⟨?_, ?_, ?_⟩ <;> simp [CallRecord.mark, hd, he, hs]
  | result r =>
      cases hrs : r.success
      · obtain ⟨hrd, hrsid⟩ := place_call_failure_shape _ _ _ _ hpc hrs
        refine ⟨rq1.mark CallStatus.failed r.duration r.error r.sid, ?_, rfl, ?_⟩
        · unfold dispatchUpdate
          dsimp only
          rw [finalise_found _ _ _ _ hget, hrs]
          rfl
        · refine ⟨?_, ?_, ?_⟩ <;> simp [CallRecord.mark, hd, he, hs, hrd, hrsid]
      · obtain ⟨hre, sid, hrsid⟩ := place_call_success_shape _ _ _ _ hpc hrs
        refine ⟨rq1.mark CallStatus.success r.duration r.error r.sid, ?_, rfl, ?_⟩
        · unfold dispatchUpdate
          dsimp only
          rw [finalise_found _ _ _ _ hget, hrs]
          rfl
        · refine ⟨?_, ?_, ?_⟩ <;> simp [CallRecord.mark, hd, he, hs, hre]

/-- Main invariant of a sequencer run over fresh queued records with distinct
ids: every store in the trace satisfies the data invariant, and once any
store of the trace shows a record in a terminal state, every later store
shows that record unchanged. -/
theorem runStores_inv (l : List (CallTask × NetOutcome)) :
    ∀ st : Store,
      (∀ x ∈ l, ∃ r, st.get? x.1.id = some r ∧ QueuedNull r) →
      ((l.map (fun x => x.1.id)).Nodup) →
      StoreInv st →
      (∀ s ∈ runStores l st, StoreInv s) ∧
      (runStores l st).Pairwise (fun s s' => ∀ id r, s.get? id = some r →
        r.status.isTerminal = true → s'.get? id = some r) := by
  induction l with
  | nil =>
      intro st hq hnd hinv
      constructor
      · intro s hs
        simp only [runStores, List.mem_singleton] at hs
        rw [hs]
        exact hinv
      · exact List.pairwise_singleton _ _
  | cons x rest ih =>
      intro st hq hnd hinv
      obtain ⟨t, n⟩ := x
      rw [List.map_cons] at hnd
      obtain ⟨rq, hrq, hQN⟩ := hq (t, n) (List.mem_cons_self _ _)
      obtain ⟨hqs, hqd, hqe, hqsid⟩ := hQN
      have hrq1fields : (rq.mark CallStatus.in_progress none none none).status = CallStatus.in_progress ∧
          (rq.mark CallStatus.in_progress none none none).duration = none ∧
          (rq.mark CallStatus.in_progress none none none).error = none ∧
          (rq.mark CallStatus.in_progress none none none).callSid = none := by
        refine ⟨rfl, ?_, ?_, ?_⟩ <;> simp [CallRecord.mark, hqd, hqe, hqsid]
      have hst1 : update_status t.id CallStatus.in_progress none st =
          st.set t.id (rq.mark CallStatus.in_progress none none none) :=
        update_status_found _ _ _ _ _ hrq
      have hget1 : (st.set t.id (rq.mark CallStatus.in_progress none none none)).get? t.id =
          some (rq.mark CallStatus.in_progress none none none) := by
        rw [Store.get?_set_self, hrq]
        rfl
      obtain ⟨rq2, hst2, hterm, hinv2⟩ :=
        dispatch_terminal_record t n _ _ hget1
          hrq1fields.2.1 hrq1fields.2.2.1 hrq1fields.2.2.2
      have hrs : runStores ((t, n) :: rest) st =
          st :: st.set t.id (rq.mark CallStatus.in_progress none none none) ::
            runStores rest ((st.set t.id (rq.mark CallStatus.in_progress none none none)).set t.id rq2) := by
        show st :: update_status t.id CallStatus.in_progress none st ::
          runStores rest (dispatchUpdate t (place_call t.number t.message n)
            (update_status t.id CallStatus.in_progress none st)) = _
        rw [hst1, hst2]
      have hne_head : ∀ x ∈ rest, x.1.id ≠ t.id := by
        intro x hx hcontra
        refine (List.nodup_cons.mp hnd).1 ?_
        show t.id ∈ rest.map (fun x => x.1.id)
        rw [← hcontra]
        exact List.mem_map_of_mem _ hx
      have hq2 : ∀ x ∈ rest, ∃ r,
          ((st.set t.id (rq.mark CallStatus.in_progress none none none)).set t.id rq2).get? x.1.id =
            some r ∧ QueuedNull r := by
        intro x hx
        obtain ⟨r, hr, hQN'⟩ := hq x (List.mem_cons_of_mem _ hx)
        refine ⟨r, ?_, hQN'⟩
        rw [Store.get?_set_ne _ _ _ _ (hne_head x hx), Store.get?_set_ne _ _ _ _ (hne_head x hx)]
        exact hr
      have hnd2 : (rest.map (fun x => x.1.id)).Nodup := (List.nodup_cons.mp hnd).2
      have hinv1 : StoreInv (st.set t.id (rq.mark CallStatus.in_progress none none none)) := by
        intro p hp
        rcases Store.mem_set p st t.id _ hp with h | h
        · rw [h]
          exact ⟨fun hh => absurd hrq1fields.2.1 hh,
            fun hh => absurd hrq1fields.2.2.2 hh,
            fun hh => absurd hrq1fields.2.2.1 hh⟩
        · exact hinv p h
      have hinv2' : StoreInv
          ((st.set t.id (rq.mark CallStatus.in_progress none none none)).set t.id rq2) := by
        intro p hp
        rcases Store.mem_set p _ t.id rq2 hp with h | h
        · rw [h]
          exact hinv2
        · exact hinv1 p h
      obtain ⟨ihAll, ihPW⟩ := ih _ hq2 hnd2 hinv2'
      constructor
      · intro s hs
        rw [hrs] at hs
        rcases List.mem_cons.mp hs with h | h
        · rw [h]; exact hinv
        rcases List.mem_cons.mp h with h' | h'
        · rw [h']; exact hinv1
        · exact ihAll s h'
      · rw [hrs]
        refine List.Pairwise.cons ?_ (List.Pairwise.cons ?_ ihPW)
        · intro b hb id r hgetr hterm'
          have hid_ne : id ≠ t.id := by
            intro hc
            rw [hc, hrq] at hgetr
            injection hgetr with hreq
            rw [← hreq, hqs] at hterm'
            simp [CallStatus.isTerminal] at hterm'
          have hid_nrest : ∀ x ∈ rest, id ≠ x.1.id := by
            intro x hx hc
            obtain ⟨r', hr', hQN'⟩ := hq x (List.mem_cons_of_mem _ hx)
            rw [← hc] at hr'
            have heq : r = r' := by
              have h2 := hgetr.symm.trans hr'
              injection h2
            rw [heq, hQN'.1] at hterm'
            simp [CallStatus.isTerminal] at hterm'
          rcases List.mem_cons.mp hb with hbe | hbr
          · rw [hbe, Store.get?_set_ne _ _ _ _ hid_ne]
            exact hgetr
          · have hb2 := runStores_get?_not_mem rest _ id hid_nrest b hbr
            rw [hb2, Store.get?_set_ne _ _ _ _ hid_ne, Store.get?_set_ne _ _ _ _ hid_ne]
            exact hgetr
        · intro b hb id r hgetr hterm'
          have hid_ne : id ≠ t.id := by
            intro hc
            rw [hc, hget1] at hgetr
            injection hgetr with hreq
            rw [← hreq, hrq1fields.1] at hterm'
            simp [CallStatus.isTerminal] at hterm'
          have hgetr0 : st.get? id = some r := by
            rw [Store.get?_set_ne st t.id id _ hid_ne] at hgetr
            exact hgetr
          have hid_nrest : ∀ x ∈ rest, id ≠ x.1.id := by
            intro x hx hc
            obtain ⟨r', hr', hQN'⟩ := hq x (List.mem_cons_of_mem _ hx)
            rw [← hc] at hr'
            have heq : r = r' := by
              have h2 := hgetr0.symm.trans hr'
              injection h2
            rw [heq, hQN'.1] at hterm'
            simp [CallStatus.isTerminal] at hterm'
          have hb2 := runStores_get?_not_mem rest _ id hid_nrest b hb
          rw [hb2, Store.get?_set_ne _ _ _ _ hid_ne]
          exact hgetr

theorem map_fst_zip_sublist {α β : Type} (l1 : List α) :
    ∀ l2 : List β, ((l1.zip l2).map Prod.fst).Sublist l1 := by
  induction l1 with
  | nil => intro l2; simp
  | cons a l1' ih =>
      intro l2
      cases l2 with
      | nil => simp
      | cons b l2' =>
          show (a :: (l1'.zip l2').map Prod.fst).Sublist (a :: l1')
          exact List.Sublist.cons₂ a (ih l2')

/-- C2: along the whole pipeline — records created by the Task Queue Builder
from an empty store, then driven by the Call Sequencer under any transport
behaviour — every store the database passes through satisfies the data
invariant (duration and external reference non-null only on `success`
records, error detail non-null only on `failed` or `skipped` records), and
once any store of the trace shows a record in a terminal state, every later
store shows that record unchanged (no operation of the core mutates a record
after it reaches a terminal state). -/
theorem C2_record_invariant_and_terminal_stability (numbers : List String)
    (message : String) (nets : List NetOutcome) :
    (∀ s ∈ runStores ((enqueue_calls numbers message 1 []).1.zip nets)
        (enqueue_calls numbers message 1 []).2.1, StoreInv s) ∧
    (runStores ((enqueue_calls numbers message 1 []).1.zip nets)
        (enqueue_calls numbers message 1 []).2.1).Pairwise
      (fun s s' => ∀ id r, s.get? id = some r → r.status.isTerminal = true →
        s'.get? id = some r) := by
  have hnodup := enqueue_calls_ids_nodup numbers message 1 []
  have hzipnodup : (((enqueue_calls numbers message 1 []).1.zip nets).map
      (fun x => x.1.id)).Nodup := by
    have hsub := map_fst_zip_sublist (enqueue_calls numbers message 1 []).1 nets
    have hsub2 := List.Sublist.map (fun t : CallTask => t.id) hsub
    rw [List.map_map] at hsub2
    exact List.Nodup.sublist hsub2 hnodup
  apply runStores_inv
  · intro x hx
    have hxt : x.1 ∈ (enqueue_calls numbers message 1 []).1 := (List.of_mem_zip hx).1
    refine ⟨⟨x.1.number, x.1.message, CallStatus.queued, none, none, none⟩, ?_, rfl, rfl, rfl, rfl⟩
    rw [enqueue_calls_store_shape numbers message 1]
    exact get?_map_tasks _ _ _ hxt hnodup
  · exact hzipnodup
  · intro p hp
    rw [enqueue_calls_store_shape numbers message 1] at hp
    obtain ⟨t, ht, hpt⟩ := List.mem_map.mp hp
    rw [← hpt]
    exact ⟨fun hh => absurd rfl hh, fun hh => absurd rfl hh, fun hh => absurd rfl hh⟩
